import Mathlib

/-!
# Verification of the `proxy-router` core (`src/packages/proxy-router/src/index.ts`)

A shallow embedding of the routing-config store, the route resolver, the
SOCKS5 / HTTP-CONNECT upstream connectors, the byte reader `readBytes`, and
the CONNECT-request parser of the local proxy router, together with proofs
of the testable properties stated in the specification.

Conventions of the embedding:
* JavaScript strings are Lean `String`s; raw socket bytes are `List Nat`
  (each entry `< 256` in practice; values are produced by the code itself).
* A TCP byte stream is the list of data chunks delivered by `data` events
  (`List (List Nat)` for binary sockets, `List (List Char)` for the
  text-level client parser).
* JavaScript falsiness of strings is modelled explicitly: a lookup result
  is "truthy" when it is present and not the empty string.
* JSON objects backing `Record<string, string>` fields are modelled as
  lookup functions `String → Option String` (own properties produced by
  `JSON.parse`).
* Fallible operations return `Option` / `Except`; a promise that can never
  resolve (a read on a stream that never delivers enough bytes) is `none`.
-/

set_option autoImplicit false

namespace ProxyRouter

/-! ## Data model (`src/packages/proxy-router/src/types.ts`)

`ProxyRouterConfig` as parsed from the watched JSON file.  `keyProxies`
maps a key id to `some none` (explicit JSON `null`), `some (some url)`
(a proxy URL string), or `none` (key absent).  `systemProxy` is an
optional field that may itself be `null`. -/

structure ProxyRouterConfig where
  ts : Int
  domainToProvider : String → Option String
  activeKeys : String → Option String
  keyProxies : String → Option (Option String)
  systemProxy : Option (Option String)

/-! ## Route resolver (`ProxyRouter.resolveProxy`, index.ts lines 179–208)

The source guards each lookup with a JavaScript truthiness check
(`if (!provider)`, `if (!activeKeyId)`, `if (!proxyUrl)`), so an absent
value, a `null`, and an empty string all fall back to a direct
connection. -/

def resolveProxy (config : Option ProxyRouterConfig) (targetHost : String) :
    Option String :=
  match config with
  | none => none
  | some cfg =>
    match cfg.domainToProvider targetHost with
    | none => none
    | some provider =>
      if provider = "" then none
      else
        match cfg.activeKeys provider with
        | none => none
        | some activeKeyId =>
          if activeKeyId = "" then none
          else
            match cfg.keyProxies activeKeyId with
            | none => none
            | some none => none
            | some (some proxyUrl) =>
              if proxyUrl = "" then none else some proxyUrl

/-! ## Config loader (`ProxyRouter.loadConfig`, index.ts lines 73–93)

The file on disk is either missing, present but rejected by `JSON.parse`
(`malformed`), or present and parsed into a config value.  The source sets
`this.config = null` when the file is missing, and the `catch` block also
sets `this.config = null` when `JSON.parse` throws; the previous snapshot
is never consulted.  The function is total: no error escapes to the
caller. -/

inductive FileState where
  | missing
  | malformed
  | valid (cfg : ProxyRouterConfig)

def loadConfig (fs : FileState) (prev : Option ProxyRouterConfig) :
    Option ProxyRouterConfig :=
  match fs, prev with
  | .missing, _ => none
  | .malformed, _ => none
  | .valid cfg, _ => some cfg

/-! ## Watcher attachment (`ProxyRouter.watchConfig`, index.ts lines 98–109)
and `start` (lines 29–48)

`fs.watch(path, cb)` throws `ENOENT` when `path` does not exist at the
moment of the call; `watchConfig` catches the error, logs a warning, and
leaves `this.configWatcher = null`, so no watcher is ever attached.
`start()` runs `loadConfig` once and then `watchConfig` once.  A
filesystem change event reaches `loadConfig` only if the watcher was
attached and the event type is `"change"`. -/

def fileExists : FileState → Bool
  | .missing => false
  | _ => true

structure RouterState where
  config : Option ProxyRouterConfig
  watcherAttached : Bool

def startRouter (fs : FileState) : RouterState :=
  { config := loadConfig fs none
    watcherAttached := fileExists fs }

/-- One filesystem event delivered after `start`: the watcher callback
fires only if the watcher was attached, and reloads only on a `"change"`
event type, reading the file state at that moment. -/
def fsEvent (st : RouterState) (eventType : String) (fs : FileState) :
    RouterState :=
  if st.watcherAttached ∧ eventType = "change" then
    { st with config := loadConfig fs st.config }
  else st

def runEvents (st : RouterState) (evs : List (String × FileState)) :
    RouterState :=
  evs.foldl (fun s e => fsEvent s e.1 e.2) st

/-! ## `readBytes` (index.ts lines 434–456)

`readBytes(socket, n)` accumulates `data` chunks into `buf`; once
`buf.length >= n` it resolves with `buf.subarray(0, n)` and, when
`buf.length > n`, unshifts `buf.subarray(n)` back onto the socket so the
next reader sees the surplus first.  The stream is the list of chunks the
socket will deliver; `none` models a promise that never resolves (the
stream ends before `n` bytes arrive). -/

def readBytesLoop (n : Nat) (buf : List Nat) :
    List (List Nat) → Option (List Nat × List (List Nat))
  | [] => none
  | c :: rest =>
    if n ≤ (buf ++ c).length then
      some ((buf ++ c).take n,
        if n < (buf ++ c).length then (buf ++ c).drop n :: rest else rest)
    else readBytesLoop n (buf ++ c) rest

def readBytes (n : Nat) (chunks : List (List Nat)) :
    Option (List Nat × List (List Nat)) :=
  readBytesLoop n [] chunks

/-! ## SOCKS5 client (`ProxyRouter.connectViaSocks5`, index.ts lines 284–335)

The read side of the handshake, over the upstream socket's chunk stream:
read 2 greeting bytes and require `[0x05, 0x00]`; read the 4-byte connect
response and require version `0x05` and reply `0x00`; then drain the bound
address according to `atype` — and, exactly as in the source, fall through
with no drain at all when `atype` is none of `0x01`/`0x04`/`0x03`.
The result is the stream left for the tunnel (`.ok`), a thrown handshake
error (`.error`), or `none` when some read never completes. -/

def connectViaSocks5 (chunks : List (List Nat)) :
    Option (Except String (List (List Nat))) :=
  (readBytes 2 chunks).bind fun greeting =>
    if greeting.1.getD 0 0 ≠ 0x05 ∨ greeting.1.getD 1 0 ≠ 0x00 then
      some (.error "SOCKS5 handshake failed (unsupported auth method)")
    else
      (readBytes 4 greeting.2).bind fun resp =>
        if resp.1.getD 0 0 ≠ 0x05 ∨ resp.1.getD 1 0 ≠ 0x00 then
          some (.error "SOCKS5 connect failed")
        else
          let atype := resp.1.getD 3 0
          if atype = 0x01 then
            (readBytes (4 + 2) resp.2).map fun r => .ok r.2
          else if atype = 0x04 then
            (readBytes (16 + 2) resp.2).map fun r => .ok r.2
          else if atype = 0x03 then
            (readBytes 1 resp.2).bind fun lenBuf =>
              (readBytes (lenBuf.1.getD 0 0 + 2) lenBuf.2).map fun r => .ok r.2
          else
            some (.ok resp.2)

/-- Length of the bound-address drain that the specification prescribes for
a given `atype`, as a function of the bytes that follow the 4-byte connect
response (for the domain form the first of those bytes is the length
prefix `N`). -/
def boundAddrDrain (atype : Nat) (tail : List Nat) : Option Nat :=
  if atype = 0x01 then some 6
  else if atype = 0x04 then some 18
  else if atype = 0x03 then tail.head?.map (fun n => 1 + n + 2)
  else none

/-! ## Event-loop model for config reads

`this.config` is a mutable field written only by `loadConfig` (run from
the `fs.watch` callback) and read by `resolveProxy` and `connectToHost`.
Node's event loop runs each callback to completion: another callback (in
particular a config reload) can run only while the connection's task is
suspended at an `await`.  `Prog` is the fragment of a connection task we
need: a synchronous read of `this.config`, a suspension point, or a
result.  `runProg` executes a program against the config cell, replacing
the cell's value at each suspension with the next entry of `sched` (an
arbitrary sequence of reload outcomes; an entry equal to the current
value models "no reload happened here"). -/

inductive Prog (α : Type) where
  | pure (a : α)
  | read (k : Option ProxyRouterConfig → Prog α)
  | await (k : Prog α)

def runProg {α : Type} :
    Prog α → Option ProxyRouterConfig → List (Option ProxyRouterConfig) → α
  | .pure a, _, _ => a
  | .read k, c, sched => runProg (k c) c sched
  | .await k, c, [] => runProg k c []
  | .await k, _, v :: sched => runProg k v sched

inductive JsError where
  | typeError
  deriving DecidableEq

/-- `ProxyRouter.resolveProxy` as it actually reads the mutable field: the
source dereferences `this.config` once for the null check (line 180) and
once for each of the three map lookups (lines 185, 192, 199), with no
`await` in between.  Dereferencing a property of `null` would throw a
`TypeError`. -/
def resolveProxyProg (targetHost : String) : Prog (Except JsError (Option String)) :=
  .read fun c0 =>
    match c0 with
    | none => .pure (.ok none)
    | some _ =>
      .read fun c1 =>
        match c1 with
        | none => .pure (.error .typeError)
        | some cfg1 =>
          match cfg1.domainToProvider targetHost with
          | none => .pure (.ok none)
          | some provider =>
            if provider = "" then .pure (.ok none)
            else
              .read fun c2 =>
                match c2 with
                | none => .pure (.error .typeError)
                | some cfg2 =>
                  match cfg2.activeKeys provider with
                  | none => .pure (.ok none)
                  | some activeKeyId =>
                    if activeKeyId = "" then .pure (.ok none)
                    else
                      .read fun c3 =>
                        match c3 with
                        | none => .pure (.error .typeError)
                        | some cfg3 =>
                          match cfg3.keyProxies activeKeyId with
                          | none => .pure (.ok none)
                          | some none => .pure (.ok none)
                          | some (some proxyUrl) =>
                            if proxyUrl = "" then .pure (.ok none)
                            else .pure (.ok (some proxyUrl))

/-- The value of `this.config?.systemProxy` after the JavaScript truthiness
check `if (!systemProxy)` in `connectToHost` (index.ts line 215–216). -/
def truthySystemProxy (c : Option ProxyRouterConfig) : Option String :=
  match c with
  | none => none
  | some cfg =>
    match cfg.systemProxy with
    | some (some s) => if s = "" then none else some s
    | _ => none

/-- The connection prelude, from `handleConnect` calling `resolveProxy`
(line 157) to the read of `this.config?.systemProxy` inside
`connectToHost` (line 215).  Both branches of `handleConnect`
(`connectViaProxy` / `connectDirect`) reach `connectToHost` synchronously:
the only statements on the way are the `new URL(upstreamProxyUrl)`
decomposition in `connectViaProxy`, so the first suspension point of the
connection task comes after the `systemProxy` read (the `await` on the
socket `connect`), modelled by the trailing `.await`. -/
def connectPreludeProg (targetHost : String) :
    Prog (Except JsError (Option String × Option String)) :=
  bindProg (resolveProxyProg targetHost) fun r =>
    match r with
    | .error e => .pure (.error e)
    | .ok hop =>
      .read fun c4 => .await (.pure (.ok (hop, truthySystemProxy c4)))
where
  bindProg {α β : Type} : Prog α → (α → Prog β) → Prog β
    | .pure a, f => f a
    | .read k, f => .read fun c => bindProg (k c) f
    | .await k, f => .await (bindProg k f)

/-- The pure, single-snapshot description of the prelude: both the per-key
hop and the system-proxy value computed from one config value `c`. -/
def connectPreludeSpec (c : Option ProxyRouterConfig) (targetHost : String) :
    Except JsError (Option String × Option String) :=
  .ok (resolveProxy c targetHost, truthySystemProxy c)

/-! ## Proxy URL decomposition

The source decomposes proxy URLs with the WHATWG `new URL(...)`
constructor and uses only `protocol`, `hostname`, `port`, `username` and
`password`.  `parseURL` models that constructor for the
`scheme://[user:pass@]host[:port]` shapes proxy URLs take (no path,
percent-escapes, or bracketed IPv6 hosts): the scheme and host are
lower-cased, the port must be numeric and below 2^16, a port equal to the
scheme's default is elided (the `port` getter then yields `""`, here
`none`), and a string the constructor would reject yields `none` (the
constructor throws a `TypeError`). -/

structure URLParts where
  scheme : String
  username : String
  password : String
  hostname : String
  port : Option Nat
  deriving DecidableEq

def splitScheme : List Char → Option (List Char × List Char)
  | [] => none
  | ':' :: '/' :: '/' :: rest => some ([], rest)
  | c :: cs => (splitScheme cs).map (fun p => (c :: p.1, p.2))

def splitFirst (sep : Char) : List Char → Option (List Char × List Char)
  | [] => none
  | c :: cs =>
    if c = sep then some ([], cs)
    else (splitFirst sep cs).map (fun p => (c :: p.1, p.2))

def splitLast (sep : Char) : List Char → Option (List Char × List Char)
  | [] => none
  | c :: cs =>
    match splitLast sep cs with
    | some (a, b) => some (c :: a, b)
    | none => if c = sep then some ([], cs) else none

def lowerStr (l : List Char) : List Char := l.map Char.toLower

def allDigits (l : List Char) : Bool := l.all fun c => '0' ≤ c ∧ c ≤ '9'

def digitsToNat (l : List Char) : Nat :=
  l.foldl (fun a c => a * 10 + (c.toNat - 48)) 0

/-- Default ports of the WHATWG special schemes (the `port` getter returns
the empty string when the URL's port equals the scheme's default). -/
def defaultPort (scheme : String) : Option Nat :=
  if scheme = "http" ∨ scheme = "ws" then some 80
  else if scheme = "https" ∨ scheme = "wss" then some 443
  else if scheme = "ftp" then some 21
  else none

def parseURL (s : String) : Option URLParts :=
  match splitScheme s.data with
  | none => none
  | some (schemeCs, rest) =>
    if schemeCs.isEmpty then none
    else
      let scheme := String.mk (lowerStr schemeCs)
      let authority := rest.takeWhile (fun c => c ≠ '/')
      let (userinfo, hostport) :=
        match splitLast '@' authority with
        | some (ui, hp) => (ui, hp)
        | none => ([], authority)
      let (user, pass) :=
        match splitFirst ':' userinfo with
        | some (u, p) => (u, p)
        | none => (userinfo, [])
      match splitLast ':' hostport with
      | some (hostCs, portCs) =>
        if hostCs.isEmpty then none
        else if portCs.isEmpty then
          some ⟨scheme, String.mk user, String.mk pass,
                String.mk (lowerStr hostCs), none⟩
        else if allDigits portCs ∧ digitsToNat portCs < 65536 then
          let p := digitsToNat portCs
          some ⟨scheme, String.mk user, String.mk pass,
                String.mk (lowerStr hostCs),
                if defaultPort scheme = some p then none else some p⟩
        else none
      | none =>
        if hostport.isEmpty then none
        else
          some ⟨scheme, String.mk user, String.mk pass,
                String.mk (lowerStr hostport), none⟩

/-! ## Base64 and UTF-8 (`Buffer.from(str).toString("base64")`) -/

def base64Table : List Char :=
  "ABCDEFGHIJKLMNOPQRSTUVWXYZabcdefghijklmnopqrstuvwxyz0123456789+/".data

def b64c (n : Nat) : Char := base64Table.getD n 'A'

def base64Chars : List Nat → List Char
  | [] => []
  | [a] => [b64c (a / 4), b64c (a % 4 * 16), '=', '=']
  | [a, b] => [b64c (a / 4), b64c (a % 4 * 16 + b / 16), b64c (b % 16 * 4), '=']
  | a :: b :: c :: rest =>
    b64c (a / 4) :: b64c (a % 4 * 16 + b / 16) ::
      b64c (b % 16 * 4 + c / 64) :: b64c (c % 64) :: base64Chars rest

def base64Encode (bs : List Nat) : String := String.mk (base64Chars bs)

/-- UTF-8 encoding of one scalar value, as `Buffer.from(s, "utf-8")`
performs it. -/
def utf8EncodeCharBytes (c : Char) : List Nat :=
  let n := c.toNat
  if n < 0x80 then [n]
  else if n < 0x800 then [0xC0 + n / 64, 0x80 + n % 64]
  else if n < 0x10000 then
    [0xE0 + n / 4096, 0x80 + n / 64 % 64, 0x80 + n % 64]
  else
    [0xF0 + n / 262144, 0x80 + n / 4096 % 64, 0x80 + n / 64 % 64,
     0x80 + n % 64]

def utf8Bytes (s : String) : List Nat := s.data.flatMap utf8EncodeCharBytes

/-! ## CONNECT request strings

`connectViaHttpConnect` (index.ts lines 242–279, the system-proxy hop)
writes a fixed two-header request and never attaches credentials.
`connectViaProxy` (lines 342–367, the per-key hop) builds the request
incrementally and appends a `Proxy-Authorization` header exactly when the
per-key URL has a non-empty username. -/

def httpConnectRequestStr (targetHost : String) (targetPort : Nat) : String :=
  "CONNECT " ++ targetHost ++ ":" ++ toString targetPort ++ " HTTP/1.1\r\n" ++
    "Host: " ++ targetHost ++ ":" ++ toString targetPort ++ "\r\n\r\n"

def buildConnectRequest (targetHost : String) (targetPort : Nat)
    (proxyAuth : Option String) : String :=
  let base :=
    "CONNECT " ++ targetHost ++ ":" ++ toString targetPort ++ " HTTP/1.1\r\n" ++
      "Host: " ++ targetHost ++ ":" ++ toString targetPort ++ "\r\n"
  let withAuth :=
    match proxyAuth with
    | some a =>
      base ++ "Proxy-Authorization: Basic " ++ base64Encode (utf8Bytes a) ++
        "\r\n"
    | none => base
  withAuth ++ "\r\n"

/-! ## Dial traces (`connectToHost`, `connectViaProxy`, `connectDirect`)

The ordered list of externally visible dialing steps a connection
performs: the single plain TCP connect, followed by one protocol
handshake per hop, each performed over the socket the previous steps
produced.  `connectToHost` (index.ts lines 214–237) dials the system
proxy when one is configured and runs its protocol's handshake for the
requested address; `connectViaProxy` (lines 342–402) first runs
`connectToHost` for the per-key proxy's address and then writes the
CONNECT request for the real target on the resulting socket;
`connectDirect` (lines 407–429) runs `connectToHost` for the target
itself. -/

inductive HopAction where
  | tcpConnect (host : String) (port : Nat)
  | socks5Connect (targetHost : String) (targetPort : Nat)
  | httpConnectReq (request : String)
  deriving DecidableEq

def connectToHostActions (c : Option ProxyRouterConfig) (host : String)
    (port : Nat) : Except String (List HopAction) :=
  match truthySystemProxy c with
  | none => .ok [.tcpConnect host port]
  | some sys =>
    match parseURL sys with
    | none => .error "Invalid URL"
    | some u =>
      let proxyPort := u.port.getD 1080
      if u.scheme = "socks5" ∨ u.scheme = "socks" then
        .ok [.tcpConnect u.hostname proxyPort, .socks5Connect host port]
      else
        .ok [.tcpConnect u.hostname proxyPort,
             .httpConnectReq (httpConnectRequestStr host port)]

def connectViaProxyActions (c : Option ProxyRouterConfig)
    (targetHost : String) (targetPort : Nat) (upstreamProxyUrl : String) :
    Except String (List HopAction) :=
  match parseURL upstreamProxyUrl with
  | none => .error "Invalid URL"
  | some u =>
    let proxyPort := u.port.getD 8080
    let proxyAuth :=
      if u.username = "" then none else some (u.username ++ ":" ++ u.password)
    match connectToHostActions c u.hostname proxyPort with
    | .error e => .error e
    | .ok as =>
      .ok (as ++
        [.httpConnectReq (buildConnectRequest targetHost targetPort proxyAuth)])

def dialActions (c : Option ProxyRouterConfig) (targetHost : String)
    (targetPort : Nat) : Except String (List HopAction) :=
  match resolveProxy c targetHost with
  | some upstreamProxyUrl =>
    connectViaProxyActions c targetHost targetPort upstreamProxyUrl
  | none => connectToHostActions c targetHost targetPort

/-! ## Client request parsing (`ProxyRouter.handleConnection`, index.ts lines 114–150)

Per accepted socket the source installs one `data` listener that
accumulates chunks into `buffer`, waits for the first `\r\n\r\n`, takes
`lines[0]` of the header block, and matches it against the regular
expression `^CONNECT\s+([^:\s]+):(\d+)\s+HTTP`.  On a match it removes
the listener and calls `handleConnect`; otherwise it answers
`clientSocket.end("HTTP/1.1 400 Bad Request\r\n\r\n")` and returns —
without removing the listener.  `socket.end(data)` writes `data` only the
first time (a later write on an ended socket fails and only reaches the
error logger).

The state below records the accumulated buffer, whether `end` has been
called, every payload successfully written by `end`, whether the `data`
listener was removed, and the `handleConnect` target if one was
dispatched. -/

def term4 : List Char := ['\r', '\n', '\r', '\n']

/-- Index of the first occurrence of `\r\n\r\n` (`buffer.indexOf("\r\n\r\n")`). -/
def findTermIdx : List Char → Option Nat
  | [] => none
  | c :: cs =>
    if term4.isPrefixOf (c :: cs) then some 0
    else (findTermIdx cs).map (· + 1)

/-- `headerStr.split("\r\n")[0]`: the characters before the first `\r\n`. -/
def requestLineOf : List Char → List Char
  | [] => []
  | '\r' :: '\n' :: _ => []
  | c :: cs => c :: requestLineOf cs

/-- The code points JavaScript's `\s` class matches. -/
def jsWsCodes : List Nat :=
  [9, 10, 11, 12, 13, 32, 0xa0, 0x1680, 0x2000, 0x2001, 0x2002, 0x2003,
   0x2004, 0x2005, 0x2006, 0x2007, 0x2008, 0x2009, 0x200a, 0x2028, 0x2029,
   0x202f, 0x205f, 0x3000, 0xfeff]

def isWs (c : Char) : Bool := jsWsCodes.contains c.toNat

def isDigitCh (c : Char) : Bool := '0' ≤ c ∧ c ≤ '9'

def isHostCh (c : Char) : Bool := c ≠ ':' ∧ ¬ isWs c

/-- Remainder after a literal, or `none` if the literal does not match. -/
def stripLit : List Char → List Char → Option (List Char)
  | [], l => some l
  | _ :: _, [] => none
  | p :: ps, c :: cs => if p = c then stripLit ps cs else none

/-- `\s+`: at least one whitespace character, consumed greedily. -/
def dropWs1 : List Char → Option (List Char)
  | [] => none
  | c :: cs => if isWs c then some (cs.dropWhile isWs) else none

/-- A nonempty maximal run of characters satisfying `p`. -/
def spanPos (p : Char → Bool) (l : List Char) :
    Option (List Char × List Char) :=
  let t := l.takeWhile p
  if t.isEmpty then none else some (t, l.dropWhile p)

def expectColon : List Char → Option (List Char)
  | ':' :: cs => some cs
  | _ => none

/-- The regular expression `^CONNECT\s+([^:\s]+):(\d+)\s+HTTP` applied to
the request line, yielding the two capture groups.  Greedy matching of
`\s+`, `[^:\s]+` and `\d+` is deterministic here: each is followed by a
character its own class excludes, so no backtracking alternative can
succeed, and the maximal-run parse below is exactly the regex match. -/
def matchConnect (l : List Char) : Option (List Char × List Char) := do
  let r1 ← stripLit "CONNECT".data l
  let r2 ← dropWs1 r1
  let (host, r3) ← spanPos isHostCh r2
  let r4 ← expectColon r3
  let (ds, r5) ← spanPos isDigitCh r4
  let r6 ← dropWs1 r5
  let _ ← stripLit "HTTP".data r6
  pure (host, ds)

/-- `parseInt` on the digits-only capture group. -/
def parsePort (ds : List Char) : Nat := digitsToNat ds

structure ConnState where
  buffer : List Char
  ended : Bool
  written : List String
  detached : Bool
  connected : Option (String × Nat)
  deriving DecidableEq

def initConn : ConnState :=
  { buffer := [], ended := false, written := [], detached := false,
    connected := none }

def resp400 : String := "HTTP/1.1 400 Bad Request\r\n\r\n"

/-- `clientSocket.end(s)`: writes `s` and half-closes on first use; a
second call fails to write (write after end) and changes nothing
observable. -/
def socketEnd (st : ConnState) (s : String) : ConnState :=
  if st.ended then st
  else { st with ended := true, written := st.written ++ [s] }

/-- One `data` event of `handleConnection`'s listener. -/
def onData (st : ConnState) (chunk : List Char) : ConnState :=
  if st.detached then st
  else
    match findTermIdx (st.buffer ++ chunk) with
    | none => { st with buffer := st.buffer ++ chunk }
    | some i =>
      if (requestLineOf ((st.buffer ++ chunk).take i)).isEmpty then
        socketEnd { st with buffer := st.buffer ++ chunk } resp400
      else
        match matchConnect (requestLineOf ((st.buffer ++ chunk).take i)) with
        | none => socketEnd { st with buffer := st.buffer ++ chunk } resp400
        | some (host, ds) =>
          { st with buffer := st.buffer ++ chunk, detached := true,
                    connected := some (String.mk host, parsePort ds) }

def runConn (chunks : List (List Char)) : ConnState :=
  chunks.foldl onData initConn

/-- A request line the CONNECT regular expression rejects (or the empty
line, which the source rejects first through `if (!requestLine)`). -/
def badRequestLine (l : List Char) : Bool :=
  l.isEmpty || (matchConnect l).isNone

/-! ## Concrete configurations used by witnesses and counterexamples -/

/-- A config whose maps are all empty. -/
def cfgNullish : ProxyRouterConfig :=
  ⟨0, fun _ => none, fun _ => none, fun _ => none, none⟩

/-- The end-to-end configuration of the specification's test catalogue,
with a SOCKS5 system proxy added. -/
def cfgA : ProxyRouterConfig :=
  ⟨0,
   fun h => if h = "api.example.com" then some "acme" else none,
   fun p => if p = "acme" then some "key1" else none,
   fun k => if k = "key1" then some (some "http://u:p@proxyhost:8080") else none,
   some (some "socks5://127.0.0.1:1080")⟩

/-- A config that routes `h` to a key whose proxy entry is the empty
string: present and non-null, but falsy in JavaScript. -/
def cfgEmptyProxy : ProxyRouterConfig :=
  ⟨0,
   fun h => if h = "h" then some "p" else none,
   fun p => if p = "p" then some "k" else none,
   fun k => if k = "k" then some (some "") else none,
   none⟩

/-- A config with no per-key routes and a credentialed HTTP system proxy. -/
def cfgSysAuth : ProxyRouterConfig :=
  ⟨0, fun _ => none, fun _ => none, fun _ => none,
   some (some "http://u:p@sysproxy:3128")⟩

/-! ## C1 — config loader error handling -/

/-- C1, counterexample: with a previous snapshot loaded, a malformed
config write does not keep the previous snapshot — `loadConfig` resets
the config to the null state (`this.config = null` in the catch block of
index.ts line 91), so the claim's "keeps the previous snapshot unchanged"
is false. -/
theorem loadConfig_malformed_drops_snapshot :
    loadConfig .malformed (some cfgNullish) = none ∧
      loadConfig .malformed (some cfgNullish) ≠ some cfgNullish := by
  exact ⟨rfl, by simp [loadConfig]⟩

/-- C1, amended: a missing config file yields the benign null state, and
a malformed config file also resets the state to null (rather than
keeping the previous snapshot); in both cases every target thereafter
resolves to a direct connection, and `loadConfig` is total — no parse
error ever escapes to crash the process. -/
theorem loadConfig_error_behaviour (prev : Option ProxyRouterConfig)
    (host : String) :
    loadConfig .missing prev = none ∧
      loadConfig .malformed prev = none ∧
      resolveProxy (loadConfig .missing prev) host = none ∧
      resolveProxy (loadConfig .malformed prev) host = none := by
  exact ⟨rfl, rfl, rfl, rfl⟩

/-! ## C9 — missing file at start: no watcher, permanent null state -/

/-- C9: when the config file does not exist at `start()`, `loadConfig`
leaves the null config and `fs.watch` throws, so `watchConfig` swallows
the error and never attaches a watcher; consequently no later filesystem
event (of any type, including the file being created with a valid
config) ever reloads the config — the router stays in the direct-only
null state until restarted. -/
theorem startRouter_missing_never_reloads
    (evs : List (String × FileState)) :
    runEvents (startRouter .missing) evs = startRouter .missing ∧
      (startRouter .missing).config = none ∧
      (startRouter .missing).watcherAttached = false := by
  refine ⟨?_, rfl, rfl⟩
  have h : ∀ (l : List (String × FileState)) (st : RouterState),
      st.watcherAttached = false → runEvents st l = st := by
    intro l
    induction l with
    | nil => intro st _; rfl
    | cons e rest ih =>
      intro st hw
      have hstep : fsEvent st e.1 e.2 = st := by
        simp [fsEvent, hw]
      calc runEvents st (e :: rest)
          = runEvents (fsEvent st e.1 e.2) rest := rfl
        _ = runEvents st rest := by rw [hstep]
        _ = st := ih st hw
  exact h evs _ rfl

/-! ## C3 — the three-step lookup of `resolveProxy` -/

/-- C3, counterexample: `domainToProvider[h] = "p"`, `activeKeys[p] = "k"`,
`keyProxies[k] = ""` — present and non-null, so the claim demands the
per-key hop `""`; but `if (!proxyUrl)` treats the empty string as falsy
and the code resolves DIRECT instead. -/
theorem resolveProxy_empty_url_direct :
    cfgEmptyProxy.domainToProvider "h" = some "p" ∧
      cfgEmptyProxy.activeKeys "p" = some "k" ∧
      cfgEmptyProxy.keyProxies "k" = some (some "") ∧
      resolveProxy (some cfgEmptyProxy) "h" = none := by
  exact ⟨rfl, rfl, rfl, rfl⟩

/-- C3, amended: the three-step lookup with JavaScript truthiness — a
step falls through to DIRECT when its value is absent, `null`, or the
empty string; when all three lookups produce truthy values (provider and
key non-empty, proxy URL non-null and non-empty) the resolved per-key
hop is exactly that URL. -/
theorem resolveProxy_three_step (H : String) :
    resolveProxy none H = none
    ∧ (∀ cfg : ProxyRouterConfig, cfg.domainToProvider H = none →
        resolveProxy (some cfg) H = none)
    ∧ (∀ cfg : ProxyRouterConfig, cfg.domainToProvider H = some "" →
        resolveProxy (some cfg) H = none)
    ∧ (∀ (cfg : ProxyRouterConfig) (P : String),
        cfg.domainToProvider H = some P → cfg.activeKeys P = none →
        resolveProxy (some cfg) H = none)
    ∧ (∀ (cfg : ProxyRouterConfig) (P : String),
        cfg.domainToProvider H = some P → cfg.activeKeys P = some "" →
        resolveProxy (some cfg) H = none)
    ∧ (∀ (cfg : ProxyRouterConfig) (P K : String),
        cfg.domainToProvider H = some P → cfg.activeKeys P = some K →
        cfg.keyProxies K = none → resolveProxy (some cfg) H = none)
    ∧ (∀ (cfg : ProxyRouterConfig) (P K : String),
        cfg.domainToProvider H = some P → cfg.activeKeys P = some K →
        cfg.keyProxies K = some none → resolveProxy (some cfg) H = none)
    ∧ (∀ (cfg : ProxyRouterConfig) (P K : String),
        cfg.domainToProvider H = some P → cfg.activeKeys P = some K →
        cfg.keyProxies K = some (some "") → resolveProxy (some cfg) H = none)
    ∧ (∀ (cfg : ProxyRouterConfig) (P K U : String),
        cfg.domainToProvider H = some P → P ≠ "" →
        cfg.activeKeys P = some K → K ≠ "" →
        cfg.keyProxies K = some (some U) → U ≠ "" →
        resolveProxy (some cfg) H = some U) := by
  refine ⟨rfl, ?_, ?_, ?_, ?_, ?_, ?_, ?_, ?_⟩
  · intro cfg h; simp [resolveProxy, h]
  · intro cfg h; simp [resolveProxy, h]
  · intro cfg P h1 h2
    simp only [resolveProxy, h1, h2]
    split <;> simp
  · intro cfg P h1 h2
    simp only [resolveProxy, h1, h2]
    split <;> simp
  · intro cfg P K h1 h2 h3
    simp only [resolveProxy, h1, h2, h3]
    split <;> [skip; split] <;> simp
  · intro cfg P K h1 h2 h3
    simp only [resolveProxy, h1, h2, h3]
    split <;> [skip; split] <;> simp
  · intro cfg P K h1 h2 h3
    simp only [resolveProxy, h1, h2, h3]
    split <;> [skip; split] <;> simp
  · intro cfg P K U h1 hP h2 hK h3 hU
    simp [resolveProxy, h1, h2, h3, hP, hK, hU]

/-- C3, witness: the amended lookup applied to the specification's
end-to-end configuration. -/
theorem resolveProxy_three_step_witness :
    resolveProxy (some cfgA) "api.example.com" =
      some "http://u:p@proxyhost:8080" :=
  (resolveProxy_three_step "api.example.com").2.2.2.2.2.2.2.2
    cfgA "acme" "key1" "http://u:p@proxyhost:8080"
    rfl (by decide) rfl (by decide) rfl (by decide)

/-! ## C10 — `readBytes` reads exactly `n` bytes and unshifts the surplus -/

theorem readBytesLoop_sound (n : Nat) :
    ∀ (chunks : List (List Nat)) (buf r : List Nat) (rest : List (List Nat)),
      readBytesLoop n buf chunks = some (r, rest) →
      r = (buf ++ chunks.flatten).take n ∧
        rest.flatten = (buf ++ chunks.flatten).drop n := by
  intro chunks
  induction chunks with
  | nil => intro buf r rest h; simp [readBytesLoop] at h
  | cons c cs ih =>
    intro buf r rest h
    simp only [readBytesLoop] at h
    by_cases hle : n ≤ (buf ++ c).length
    · rw [if_pos hle] at h
      have hflat : buf ++ (c :: cs).flatten = (buf ++ c) ++ cs.flatten := by
        simp [List.flatten_cons, List.append_assoc]
      simp only [Option.some.injEq, Prod.mk.injEq] at h
      obtain ⟨hr, hrest⟩ := h
      constructor
      · rw [hflat, List.take_append_of_le_length hle, hr]
      · rw [hflat, List.drop_append_of_le_length hle]
        by_cases hlt : n < (buf ++ c).length
        · rw [if_pos hlt] at hrest
          rw [← hrest]
          simp [List.flatten_cons]
        · rw [if_neg hlt] at hrest
          have heq : n = (buf ++ c).length := by omega
          rw [← hrest, heq, List.drop_length]
          simp
    · rw [if_neg hle] at h
      have := ih (buf ++ c) r rest h
      simpa [List.flatten_cons, List.append_assoc] using this

theorem readBytesLoop_complete (n : Nat) :
    ∀ (chunks : List (List Nat)) (buf : List Nat), buf.length < n →
      n ≤ buf.length + chunks.flatten.length →
      (readBytesLoop n buf chunks).isSome := by
  intro chunks
  induction chunks with
  | nil =>
    intro buf h1 h2
    simp only [List.flatten_nil, List.length_nil] at h2
    omega
  | cons c cs ih =>
    intro buf h1 h2
    simp only [readBytesLoop]
    by_cases hle : n ≤ (buf ++ c).length
    · rw [if_pos hle]; rfl
    · rw [if_neg hle]
      simp only [List.length_append] at hle
      simp only [List.flatten_cons, List.length_append] at h2
      apply ih (buf ++ c) <;> simp only [List.length_append] <;> omega

/-- The two halves of the `readBytes` contract as a reusable lemma:
whenever the stream holds at least `n` bytes (and `n > 0`, so at least
one `data` event fires), the promise resolves with exactly the first `n`
bytes of the stream and the remaining stream carries exactly the bytes
after them (surplus unshifted in front). -/
theorem readBytes_resolves (n : Nat) (chunks : List (List Nat)) (h0 : 0 < n)
    (hn : n ≤ chunks.flatten.length) :
    ∃ rest, readBytes n chunks = some (chunks.flatten.take n, rest) ∧
      rest.flatten = chunks.flatten.drop n := by
  have hc := readBytesLoop_complete n chunks [] (by simpa using h0) (by simpa using hn)
  rw [Option.isSome_iff_exists] at hc
  obtain ⟨⟨r, rest⟩, hr⟩ := hc
  have hs := readBytesLoop_sound n chunks [] r rest hr
  simp only [List.nil_append] at hs
  exact ⟨rest, by rw [readBytes, hr, hs.1], hs.2⟩

/-- C10: `readBytes(socket, n)` resolves with exactly the first `n` bytes
the socket delivers, and pushes any surplus bytes of the final chunk back
onto the socket, so the remaining stream is exactly the bytes after the
first `n` — no byte is discarded and none is double-read.  The first
conjunct characterises every resolution; the second guarantees
resolution whenever the stream delivers at least `n` bytes (`n > 0`). -/
theorem readBytes_exact_first_n (n : Nat) (chunks : List (List Nat)) :
    (∀ r rest, readBytes n chunks = some (r, rest) →
      r = chunks.flatten.take n ∧ rest.flatten = chunks.flatten.drop n)
    ∧ (0 < n → n ≤ chunks.flatten.length →
      ∃ rest, readBytes n chunks = some (chunks.flatten.take n, rest) ∧
        rest.flatten = chunks.flatten.drop n) := by
  constructor
  · intro r rest h
    have := readBytesLoop_sound n chunks [] r rest h
    simpa using this
  · intro h0 hn
    exact readBytes_resolves n chunks h0 hn

/-- C10, witness: a read of 3 bytes across a chunk boundary, with the
surplus of the second chunk pushed back. -/
theorem readBytes_exact_first_n_witness :
    ∃ rest, readBytes 3 [[10, 20], [30, 40, 50]] = some ([10, 20, 30], rest) ∧
      rest.flatten = [40, 50] := by
  have h := (readBytes_exact_first_n 3 [[10, 20], [30, 40, 50]]).2
    (by decide) (by decide)
  obtain ⟨rest, h1, h2⟩ := h
  have e1 : ([[10, 20], [30, 40, 50]] : List (List Nat)).flatten.take 3 =
      [10, 20, 30] := by decide
  have e2 : ([[10, 20], [30, 40, 50]] : List (List Nat)).flatten.drop 3 =
      [40, 50] := by decide
  rw [e1] at h1
  rw [e2] at h2
  exact ⟨rest, h1, h2⟩

/-! ## C4 — the SOCKS5 bound-address drain -/

/-- C4: after a successful connect reply (`[0x05, 0x00, rsv, atype]`),
the client drains exactly 6 bytes for `atype = 0x01`, 18 bytes for
`atype = 0x04`, and `1 + N + 2` bytes for `atype = 0x03` (where `N` is
the first byte after the reply), leaving the remaining stream at exactly
the byte after the bound-address field: no handshake byte leaks into the
tunnel and no payload byte is consumed. -/
theorem socks5_drain_exact (chunks : List (List Nat)) (rsv atype d : Nat)
    (tail : List Nat)
    (hj : chunks.flatten = 0x05 :: 0x00 :: 0x05 :: 0x00 :: rsv :: atype :: tail)
    (hd : boundAddrDrain atype tail = some d)
    (hl : d ≤ tail.length) :
    ∃ rest, connectViaSocks5 chunks = some (.ok rest) ∧
      rest.flatten = tail.drop d := by
  obtain ⟨s1, hr1, hs1⟩ := readBytes_resolves 2 chunks (by omega)
    (by rw [hj]; simp)
  rw [hj] at hr1 hs1
  simp only [List.take_succ_cons, List.take_zero, List.drop_succ_cons,
    List.drop_zero] at hr1 hs1
  obtain ⟨s2, hr2, hs2⟩ := readBytes_resolves 4 s1 (by omega)
    (by rw [hs1]; simp)
  rw [hs1] at hr2 hs2
  simp only [List.take_succ_cons, List.take_zero, List.drop_succ_cons,
    List.drop_zero] at hr2 hs2
  unfold connectViaSocks5
  rw [hr1, Option.some_bind]
  simp only [List.getD_cons_zero, List.getD_cons_succ]
  norm_num
  rw [hr2, Option.some_bind]
  simp only [List.getD_cons_zero, List.getD_cons_succ]
  norm_num
  unfold boundAddrDrain at hd
  by_cases h1 : atype = 0x01
  · subst h1
    norm_num at hd ⊢
    obtain ⟨s3, hr3, hs3⟩ := readBytes_resolves 6 s2 (by omega)
      (by rw [hs2]; omega)
    rw [hr3]
    refine ⟨s3, ⟨_, rfl⟩, ?_⟩
    rw [hs3, hs2, ← hd]
  · by_cases h4 : atype = 0x04
    · subst h4
      norm_num at hd ⊢
      obtain ⟨s3, hr3, hs3⟩ := readBytes_resolves 18 s2 (by omega)
        (by rw [hs2]; omega)
      rw [hr3]
      refine ⟨s3, ⟨_, rfl⟩, ?_⟩
      rw [hs3, hs2, ← hd]
    · by_cases h3 : atype = 0x03
      · subst h3
        norm_num at hd ⊢
        cases tail with
        | nil => simp at hd
        | cons N t =>
          simp only [List.head?_cons, Option.some.injEq] at hd
          obtain ⟨a, ha1, ha2⟩ := hd
          subst ha1
          subst ha2
          obtain ⟨s3, hr3, hs3⟩ := readBytes_resolves 1 s2 (by omega)
            (by rw [hs2]; simp)
          rw [hs2] at hr3 hs3
          simp only [List.take_succ_cons, List.take_zero,
            List.drop_succ_cons, List.drop_zero] at hr3 hs3
          obtain ⟨s4, hr4, hs4⟩ := readBytes_resolves (N + 2) s3 (by omega)
            (by rw [hs3]; simp only [List.length_cons] at hl; omega)
          refine ⟨s4, ?_, ?_⟩
          · rw [hr3, Option.some_bind]
            simp only [List.getElem?_cons_zero, Option.getD_some]
            rw [hr4, Option.map_some']
          · rw [hs4, hs3]
            have he : 1 + N + 2 = (N + 2) + 1 := by omega
            rw [he, List.drop_succ_cons]
      · rw [if_neg h1, if_neg h4, if_neg h3] at hd
        simp at hd

/-- C4, witness: an IPv4 reply whose 6 drained bytes are followed by one
payload byte, delivered in a single chunk. -/
theorem socks5_drain_exact_witness :
    ∃ rest,
      connectViaSocks5 [[0x05, 0x00, 0x05, 0x00, 0x00, 0x01,
        10, 0, 0, 1, 0, 80, 99]] = some (.ok rest) ∧
      rest.flatten = [99] := by
  obtain ⟨rest, h1, h2⟩ := socks5_drain_exact
    [[0x05, 0x00, 0x05, 0x00, 0x00, 0x01, 10, 0, 0, 1, 0, 80, 99]]
    0x00 0x01 6 [10, 0, 0, 1, 0, 80, 99] (by decide) (by decide) (by decide)
  exact ⟨rest, h1, by rw [h2]; decide⟩

/-! ## C5 — an impossible `atype` is not treated as an error -/

/-- C5, counterexample: a connect response with the impossible
`atype = 0x09` makes the source skip all three drain branches and fall
through to `return socket` — the handshake is treated as successful (no
`ProtocolViolationError`, no 502), and the bound-address byte `42` is
left in the stream as tunnel payload. -/
theorem socks5_unknown_atype_succeeds :
    connectViaSocks5 [[0x05, 0x00, 0x05, 0x00, 0x00, 0x09, 42]] =
      some (.ok [[42]]) := by rfl

/-- C5, amended: a connect response whose `atype` is none of
`0x01`/`0x04`/`0x03` is not rejected: the client drains nothing and
returns the socket as if the handshake had succeeded, leaving every
bound-address byte in the stream for the tunnel. -/
theorem socks5_unknown_atype_no_drain (chunks : List (List Nat))
    (rsv atype : Nat) (tail : List Nat)
    (hj : chunks.flatten = 0x05 :: 0x00 :: 0x05 :: 0x00 :: rsv :: atype :: tail)
    (h1 : atype ≠ 0x01) (h4 : atype ≠ 0x04) (h3 : atype ≠ 0x03) :
    ∃ rest, connectViaSocks5 chunks = some (.ok rest) ∧
      rest.flatten = tail := by
  obtain ⟨s1, hr1, hs1⟩ := readBytes_resolves 2 chunks (by omega)
    (by rw [hj]; simp)
  rw [hj] at hr1 hs1
  simp only [List.take_succ_cons, List.take_zero, List.drop_succ_cons,
    List.drop_zero] at hr1 hs1
  obtain ⟨s2, hr2, hs2⟩ := readBytes_resolves 4 s1 (by omega)
    (by rw [hs1]; simp)
  rw [hs1] at hr2 hs2
  simp only [List.take_succ_cons, List.take_zero, List.drop_succ_cons,
    List.drop_zero] at hr2 hs2
  unfold connectViaSocks5
  rw [hr1, Option.some_bind]
  simp only [List.getD_cons_zero, List.getD_cons_succ]
  norm_num
  rw [hr2, Option.some_bind]
  simp only [List.getD_cons_zero, List.getD_cons_succ]
  norm_num
  rw [if_neg h1, if_neg h4, if_neg h3]
  exact ⟨s2, rfl, hs2⟩

/-- C5, witness for the amended claim: `atype = 0x07` with two
bound-address bytes left untouched, across chunk boundaries. -/
theorem socks5_unknown_atype_no_drain_witness :
    ∃ rest, connectViaSocks5 [[0x05, 0x00], [0x05, 0x00, 0x00, 0x07], [1, 2]] =
      some (.ok rest) ∧ rest.flatten = [1, 2] := by
  obtain ⟨rest, hh1, hh2⟩ := socks5_unknown_atype_no_drain
    [[0x05, 0x00], [0x05, 0x00, 0x00, 0x07], [1, 2]] 0x00 0x07 [1, 2]
    (by decide) (by decide) (by decide) (by decide)
  exact ⟨rest, hh1, hh2⟩

/-! ## C2 — config reads of one resolution see a single snapshot -/

theorem runProg_await_pure {α : Type} (x : α) (c : Option ProxyRouterConfig)
    (s : List (Option ProxyRouterConfig)) :
    runProg (.await (.pure x)) c s = x := by
  cases s <;> rfl

/-- Running `resolveProxyProg` under any continuation consumes no schedule
entries and produces `.ok` of the pure `resolveProxy` at the current cell
value: its five field reads all happen in one synchronous segment, so
they all see the same cell value and the `TypeError` branches are
unreachable. -/
theorem resolveProxyProg_run {X : Type} (host : String)
    (k : Except JsError (Option String) → Prog X)
    (c : Option ProxyRouterConfig) (sched : List (Option ProxyRouterConfig)) :
    runProg (connectPreludeProg.bindProg (resolveProxyProg host) k) c sched =
      runProg (k (.ok (resolveProxy c host))) c sched := by
  cases c with
  | none => rfl
  | some cfg =>
    simp only [resolveProxyProg, connectPreludeProg.bindProg, runProg]
    rcases hdp : cfg.domainToProvider host with _ | provider
    · simp only [hdp, connectPreludeProg.bindProg, runProg, resolveProxy]
    · simp only [hdp, resolveProxy]
      by_cases hp : provider = ""
      · simp only [hp, if_pos rfl, connectPreludeProg.bindProg, runProg]
        simp
      · rw [if_neg hp]
        simp only [connectPreludeProg.bindProg, runProg]
        rw [if_neg hp]
        rcases hak : cfg.activeKeys provider with _ | keyId
        · simp only [hak, connectPreludeProg.bindProg, runProg]
        · simp only [hak]
          by_cases hk : keyId = ""
          · simp only [hk, if_pos rfl, connectPreludeProg.bindProg, runProg]
            simp
          · rw [if_neg hk]
            simp only [connectPreludeProg.bindProg, runProg]
            rw [if_neg hk]
            rcases hkp : cfg.keyProxies keyId with _ | u
            · simp only [hkp, connectPreludeProg.bindProg, runProg]
            · cases u with
              | none => simp only [hkp, connectPreludeProg.bindProg, runProg]
              | some url =>
                simp only [hkp]
                by_cases hu : url = ""
                · simp only [hu, if_pos rfl, connectPreludeProg.bindProg,
                    runProg]
                  simp
                · rw [if_neg hu]
                  simp only [connectPreludeProg.bindProg, runProg]
                  rw [if_neg hu]

/-- C2: a connection's resolution-and-dial prelude — `resolveProxy`'s
four reads of `this.config` and `connectToHost`'s read of
`this.config?.systemProxy` — executes in one synchronous event-loop
segment (no `await` separates the reads), so whatever sequence of config
reloads is scheduled at the true suspension points, the per-key hop and
the system-proxy value it dials with are both computed from the single
snapshot current when the segment began: no resolution ever observes a
mixture of an old and a new snapshot. -/
theorem config_reload_atomic (targetHost : String)
    (c : Option ProxyRouterConfig)
    (sched : List (Option ProxyRouterConfig)) :
    runProg (connectPreludeProg targetHost) c sched =
      connectPreludeSpec c targetHost := by
  unfold connectPreludeProg
  rw [resolveProxyProg_run]
  simp only [runProg]
  rw [runProg_await_pure]
  rfl

/-! ## C6 — hop order: system proxy outermost, per-key next, target innermost -/

/-- The protocol handshake `connectToHost` runs through the system proxy
for a given next-hop address, selected by the system proxy URL's scheme. -/
def hopHandshake (u : URLParts) (host : String) (port : Nat) : HopAction :=
  if u.scheme = "socks5" ∨ u.scheme = "socks" then .socks5Connect host port
  else .httpConnectReq (httpConnectRequestStr host port)

/-- The credentials `connectViaProxy` extracts from the per-key proxy URL
(`url.username ? username:password : null`). -/
def perKeyAuth (u : URLParts) : Option String :=
  if u.username = "" then none else some (u.username ++ ":" ++ u.password)

/-- C6: the dial trace of a connection, by configuration shape.  With both
a system proxy and a resolved per-key proxy, the router first TCP-dials
the system proxy, then runs the system proxy's protocol handshake for the
per-key proxy's address, then sends the HTTP CONNECT for the real target
through the per-key proxy — in exactly that order, skipping nothing.
With only one of the two configured, that one is the sole hop, and with
neither the trace is a single plain TCP connect to the target. -/
theorem dial_hop_order (c : Option ProxyRouterConfig) (host : String)
    (port : Nat) :
    (∀ s su u pu, truthySystemProxy c = some s → parseURL s = some su →
      resolveProxy c host = some u → parseURL u = some pu →
      dialActions c host port = .ok
        [.tcpConnect su.hostname (su.port.getD 1080),
         hopHandshake su pu.hostname (pu.port.getD 8080),
         .httpConnectReq (buildConnectRequest host port (perKeyAuth pu))])
    ∧ (∀ u pu, truthySystemProxy c = none →
      resolveProxy c host = some u → parseURL u = some pu →
      dialActions c host port = .ok
        [.tcpConnect pu.hostname (pu.port.getD 8080),
         .httpConnectReq (buildConnectRequest host port (perKeyAuth pu))])
    ∧ (∀ s su, resolveProxy c host = none → truthySystemProxy c = some s →
      parseURL s = some su →
      dialActions c host port = .ok
        [.tcpConnect su.hostname (su.port.getD 1080),
         hopHandshake su host port])
    ∧ (resolveProxy c host = none → truthySystemProxy c = none →
      dialActions c host port = .ok [.tcpConnect host port]) := by
  refine ⟨?_, ?_, ?_, ?_⟩
  · intro s su u pu hs hsu hu hpu
    simp only [dialActions, hu, connectViaProxyActions, hpu,
      connectToHostActions, hs, hsu]
    unfold hopHandshake perKeyAuth
    by_cases hsch : su.scheme = "socks5" ∨ su.scheme = "socks"
    · simp [hsch]
    · simp [hsch]
  · intro u pu hs hu hpu
    simp only [dialActions, hu, connectViaProxyActions, hpu,
      connectToHostActions, hs]
    unfold perKeyAuth
    simp
  · intro s su hu hs hsu
    simp only [dialActions, hu, connectToHostActions, hs, hsu]
    unfold hopHandshake
    by_cases hsch : su.scheme = "socks5" ∨ su.scheme = "socks"
    · simp [hsch]
    · simp [hsch]
  · intro hu hs
    simp only [dialActions, hu, connectToHostActions, hs]

/-- C6, witness: the end-to-end configuration with a SOCKS5 system proxy
and a credentialed per-key HTTP proxy produces the three-step trace. -/
theorem dial_hop_order_witness :
    dialActions (some cfgA) "api.example.com" 443 = .ok
      [.tcpConnect "127.0.0.1" 1080,
       .socks5Connect "proxyhost" 8080,
       .httpConnectReq (buildConnectRequest "api.example.com" 443
         (some "u:p"))] := by
  have h := (dial_hop_order (some cfgA) "api.example.com" 443).1
    "socks5://127.0.0.1:1080"
    ⟨"socks5", "", "", "127.0.0.1", some 1080⟩
    "http://u:p@proxyhost:8080"
    ⟨"http", "u", "p", "proxyhost", some 8080⟩
    rfl (by decide) rfl (by decide)
  rw [h]
  rfl

/-! ## C7 — `Proxy-Authorization` headers per hop -/

/-- Boolean substring occurrence over the underlying character lists. -/
def hasSubstr (p : List Char) : List Char → Bool
  | [] => p.isEmpty
  | c :: cs => p.isPrefixOf (c :: cs) || hasSubstr p cs

def containsSubstr (hay pat : String) : Bool := hasSubstr pat.data hay.data

theorem isPrefixOf_append_self (p t : List Char) :
    p.isPrefixOf (p ++ t) = true := by
  induction p with
  | nil => simp
  | cons c cs ih => simp [List.isPrefixOf, ih]

theorem hasSubstr_intro (a p b : List Char) :
    hasSubstr p (a ++ p ++ b) = true := by
  induction a with
  | nil =>
    simp only [List.nil_append]
    cases hp : p with
    | nil =>
      cases b with
      | nil => rfl
      | cons c cs => simp [hasSubstr, List.isPrefixOf]
    | cons c cs =>
      rw [← hp]
      have : p ++ b = p ++ b := rfl
      cases hpb : p ++ b with
      | nil =>
        exfalso
        have := congrArg List.length hpb
        simp [hp] at this
      | cons d ds =>
        simp only [hasSubstr, Bool.or_eq_true]
        left
        rw [← hpb]
        exact isPrefixOf_append_self p b
  | cons x a' ih =>
    simp only [List.cons_append, hasSubstr, Bool.or_eq_true]
    right
    exact ih

/-- C7, counterexample: the system-proxy URL carries credentials
(`username = "u"`), yet the CONNECT request `connectViaHttpConnect`
writes on the system-proxy hop is the fixed two-header request with no
`Proxy-Authorization` header — refuting the claim's "for the system-proxy
hop alike". -/
theorem system_hop_no_auth_header :
    (parseURL "http://u:p@sysproxy:3128").map URLParts.username = some "u" ∧
      dialActions (some cfgSysAuth) "api.example.com" 443 =
        .ok [.tcpConnect "sysproxy" 3128,
             .httpConnectReq (httpConnectRequestStr "api.example.com" 443)] ∧
      containsSubstr (httpConnectRequestStr "api.example.com" 443)
        "Proxy-Authorization" = false := by
  refine ⟨by decide, by rfl, by decide⟩

/-- C7, amended: on the per-key HTTP-CONNECT hop the request carries a
`Proxy-Authorization: Basic base64(user:pass)` header exactly when the
per-key URL has credentials (non-empty username), and without
credentials it is the bare two-header request; the system-proxy hop's
CONNECT request, however, is always the bare two-header request
(`connectViaHttpConnect` never attaches credentials), even when the
system-proxy URL carries user:pass. -/
theorem connect_request_auth (c : Option ProxyRouterConfig) (host : String)
    (port : Nat) (u : String) (pu : URLParts) (as : List HopAction)
    (hr : resolveProxy c host = some u) (hp : parseURL u = some pu)
    (hd : dialActions c host port = .ok as) :
    as.getLast? = some (.httpConnectReq
        (buildConnectRequest host port (perKeyAuth pu)))
    ∧ (pu.username ≠ "" →
        containsSubstr (buildConnectRequest host port (perKeyAuth pu))
          ("Proxy-Authorization: Basic " ++
            base64Encode (utf8Bytes (pu.username ++ ":" ++ pu.password)) ++
            "\r\n") = true)
    ∧ (pu.username = "" →
        buildConnectRequest host port (perKeyAuth pu) =
          httpConnectRequestStr host port)
    ∧ (∀ (c2 : Option ProxyRouterConfig) (h2 : String) (p2 : Nat)
        (as2 : List HopAction) (r : String),
        connectToHostActions c2 h2 p2 = .ok as2 →
        HopAction.httpConnectReq r ∈ as2 →
        r = httpConnectRequestStr h2 p2) := by
  refine ⟨?_, ?_, ?_, ?_⟩
  · simp only [dialActions, hr, connectViaProxyActions, hp] at hd
    rcases hct : connectToHostActions c pu.hostname (pu.port.getD 8080)
      with e | as'
    · rw [hct] at hd
      cases hd
    · rw [hct] at hd
      simp only [Except.ok.injEq] at hd
      rw [← hd, List.getLast?_concat]
      rfl
  · intro hu
    unfold containsSubstr buildConnectRequest perKeyAuth
    rw [if_neg hu]
    have h := hasSubstr_intro
      ("CONNECT " ++ host ++ ":" ++ toString port ++ " HTTP/1.1\r\n" ++
        "Host: " ++ host ++ ":" ++ toString port ++ "\r\n").data
      ("Proxy-Authorization: Basic " ++
        base64Encode (utf8Bytes (pu.username ++ ":" ++ pu.password)) ++
        "\r\n").data
      "\r\n".data
    simp only [String.data_append, List.append_assoc] at h ⊢
    exact h
  · intro hu
    apply String.ext
    unfold buildConnectRequest perKeyAuth httpConnectRequestStr
    rw [if_pos hu]
    have hcr : ("\r\n\r\n" : String).data = "\r\n".data ++ "\r\n".data := by
      decide
    simp only [String.data_append, List.append_assoc, hcr,
      List.cons_append, List.nil_append]
  · intro c2 h2 p2 as2 r hct hmem
    unfold connectToHostActions at hct
    rcases hsys : truthySystemProxy c2 with _ | sys
    · simp only [hsys, Except.ok.injEq] at hct
      rw [← hct] at hmem
      simp at hmem
    · simp only [hsys] at hct
      rcases hpu2 : parseURL sys with _ | u2
      · simp only [hpu2] at hct
        cases hct
      · simp only [hpu2] at hct
        by_cases hsch : u2.scheme = "socks5" ∨ u2.scheme = "socks"
        · rw [if_pos hsch] at hct
          simp only [Except.ok.injEq] at hct
          rw [← hct] at hmem
          simp at hmem
        · rw [if_neg hsch] at hct
          simp only [Except.ok.injEq] at hct
          rw [← hct] at hmem
          simp at hmem
          exact hmem

/-- C7, witness for the amended claim: the specification's end-to-end
per-key proxy `http://u:p@proxyhost:8080` yields a CONNECT request
carrying `Proxy-Authorization: Basic dTpw`. -/
theorem connect_request_auth_witness :
    containsSubstr (buildConnectRequest "api.example.com" 443 (some "u:p"))
      "Proxy-Authorization: Basic dTpw\r\n" = true := by
  have h := (connect_request_auth (some cfgA) "api.example.com" 443
    "http://u:p@proxyhost:8080" ⟨"http", "u", "p", "proxyhost", some 8080⟩
    [.tcpConnect "127.0.0.1" 1080,
     .socks5Connect "proxyhost" 8080,
     .httpConnectReq (buildConnectRequest "api.example.com" 443
       (some "u:p"))]
    rfl (by decide) (by rfl)).2.1 (by decide)
  have hauth : perKeyAuth ⟨"http", "u", "p", "proxyhost", some 8080⟩ =
      some "u:p" := by decide
  have hpat : ("Proxy-Authorization: Basic " ++
      base64Encode (utf8Bytes ("u" ++ ":" ++ "p")) ++ "\r\n") =
      "Proxy-Authorization: Basic dTpw\r\n" := by decide
  rw [hauth, hpat] at h
  exact h

/-! ## C8 — a malformed first request line: one 400, socket ended

Supporting lemmas: the index of the first `\r\n\r\n` is stable under
appending further chunks, and so is the header block (hence the request
line) it delimits. -/

theorem isPrefixOf_append_of_le (p : List Char) :
    ∀ (l t : List Char), p.length ≤ l.length →
      p.isPrefixOf (l ++ t) = p.isPrefixOf l := by
  induction p with
  | nil => intro l t _; simp
  | cons a ps ih =>
    intro l t h
    cases l with
    | nil => simp at h
    | cons b ls =>
      simp only [List.cons_append, List.isPrefixOf_cons₂]
      rw [ih ls t (by simpa using h)]

theorem findTermIdx_bound :
    ∀ (l : List Char) (i : Nat), findTermIdx l = some i → i + 4 ≤ l.length := by
  intro l
  induction l with
  | nil => intro i h; simp [findTermIdx] at h
  | cons c cs ih =>
    intro i h
    unfold findTermIdx at h
    by_cases hp : term4.isPrefixOf (c :: cs) = true
    · rw [if_pos hp] at h
      simp only [Option.some.injEq] at h
      have hpre : term4 <+: (c :: cs) := by
        rw [← List.isPrefixOf_iff_prefix]
        exact hp
      have hlen : (4 : Nat) ≤ (c :: cs).length := by
        simpa [term4] using hpre.length_le
      omega
    · rw [if_neg hp] at h
      rcases Option.map_eq_some'.mp h with ⟨j, hj, hij⟩
      have := ih j hj
      simp only [List.length_cons]
      omega

theorem findTermIdx_append :
    ∀ (l t : List Char) (i : Nat), findTermIdx l = some i →
      findTermIdx (l ++ t) = some i := by
  intro l
  induction l with
  | nil => intro t i h; simp [findTermIdx] at h
  | cons c cs ih =>
    intro t i h
    rw [List.cons_append]
    unfold findTermIdx at h ⊢
    by_cases hp : term4.isPrefixOf (c :: cs) = true
    · rw [if_pos hp] at h
      have hpre : term4 <+: (c :: cs) := by
        rw [← List.isPrefixOf_iff_prefix]; exact hp
      have hp2 : term4.isPrefixOf (c :: (cs ++ t)) = true := by
        rw [← List.cons_append,
          isPrefixOf_append_of_le term4 (c :: cs) t
            (by simpa [term4] using hpre.length_le)]
        exact hp
      rw [if_pos hp2]
      exact h
    · rw [if_neg hp] at h
      rcases Option.map_eq_some'.mp h with ⟨j, hj, hij⟩
      have hb := findTermIdx_bound cs j hj
      have hp2 : term4.isPrefixOf (c :: (cs ++ t)) = false := by
        rw [← List.cons_append,
          isPrefixOf_append_of_le term4 (c :: cs) t
            (by simp only [term4, List.length_cons, List.length_nil]; omega)]
        exact Bool.eq_false_iff.mpr hp
      rw [if_neg (by simp [hp2])]
      rw [ih t j hj]
      simpa using hij

/-- After the 400 was sent over an ended socket, every further chunk is
still appended to the parser buffer (the `data` listener was never
removed), but re-parsing takes the same bad branch and the second
`socket.end` writes nothing. -/
theorem runConn_after_end :
    ∀ (chunks : List (List Char)) (st : ConnState) (i : Nat),
      st.detached = false → st.ended = true →
      findTermIdx st.buffer = some i →
      badRequestLine (requestLineOf (st.buffer.take i)) = true →
      chunks.foldl onData st =
        { st with buffer := st.buffer ++ chunks.flatten } := by
  intro chunks
  induction chunks with
  | nil =>
    intro st i h1 h2 h3 h4
    simp
  | cons ch cs ih =>
    intro st i h1 h2 h3 h4
    have hbound := findTermIdx_bound st.buffer i h3
    have hterm2 : findTermIdx (st.buffer ++ ch) = some i :=
      findTermIdx_append st.buffer ch i h3
    have htake : (st.buffer ++ ch).take i = st.buffer.take i :=
      List.take_append_of_le_length (by omega)
    have hstep : onData st ch = { st with buffer := st.buffer ++ ch } := by
      unfold onData
      rw [if_neg (by rw [h1]; exact Bool.false_ne_true)]
      simp only [hterm2, htake]
      unfold badRequestLine at h4
      rcases Bool.or_eq_true_iff.mp h4 with hb | hb
      · rw [if_pos (by simpa using hb)]
        unfold socketEnd
        rw [if_pos (by rw [h2])]
      · have hbm : matchConnect (requestLineOf (st.buffer.take i)) = none :=
          Option.isNone_iff_eq_none.mp (by simpa using hb)
        by_cases hempty :
            (requestLineOf (st.buffer.take i)).isEmpty = true
        · rw [if_pos hempty]
          unfold socketEnd
          rw [if_pos (by rw [h2])]
        · rw [if_neg hempty, hbm]
          unfold socketEnd
          rw [if_pos (by rw [h2])]
    rw [List.foldl_cons, hstep]
    have hnext := ih { st with buffer := st.buffer ++ ch } i h1 h2
      (by simpa using hterm2) (by simpa [htake] using h4)
    simp only at hnext
    rw [hnext]
    simp [List.append_assoc]

/-- Processing a stream whose accumulated bytes eventually contain
`\r\n\r\n` with a bad first line, starting from a clean listener state
with `b` already buffered and no terminator seen yet. -/
theorem runConn_from_buffer :
    ∀ (chunks : List (List Char)) (b : List Char) (i : Nat),
      findTermIdx b = none →
      findTermIdx (b ++ chunks.flatten) = some i →
      badRequestLine (requestLineOf ((b ++ chunks.flatten).take i)) = true →
      chunks.foldl onData
          { buffer := b, ended := false, written := [], detached := false,
            connected := none } =
        { buffer := b ++ chunks.flatten, ended := true, written := [resp400],
          detached := false, connected := none } := by
  intro chunks
  induction chunks with
  | nil =>
    intro b i h0 h1 h2
    rw [List.flatten_nil, List.append_nil] at h1
    rw [h0] at h1
    cases h1
  | cons ch cs ih =>
    intro b i h0 h1 h2
    rw [List.flatten_cons, ← List.append_assoc] at h1 h2
    rcases hterm1 : findTermIdx (b ++ ch) with _ | i'
    · have hstep : onData
          { buffer := b, ended := false, written := [], detached := false,
            connected := none } ch =
          { buffer := b ++ ch, ended := false, written := [],
            detached := false, connected := none } := by
        unfold onData
        rw [if_neg (by exact Bool.false_ne_true)]
        simp only [hterm1]
      rw [List.foldl_cons, hstep]
      simpa [List.flatten_cons, List.append_assoc] using
        ih (b ++ ch) i hterm1 h1 h2
    · have hieq : i' = i := by
        have := findTermIdx_append (b ++ ch) cs.flatten i' hterm1
        rw [this] at h1
        exact (Option.some.injEq _ _).mp h1
      subst hieq
      have hbound := findTermIdx_bound (b ++ ch) i' hterm1
      have htake : (b ++ ch ++ cs.flatten).take i' = (b ++ ch).take i' :=
        List.take_append_of_le_length (by omega)
      rw [htake] at h2
      have hstep : onData
          { buffer := b, ended := false, written := [], detached := false,
            connected := none } ch =
          { buffer := b ++ ch, ended := true, written := [resp400],
            detached := false, connected := none } := by
        unfold onData
        rw [if_neg (by exact Bool.false_ne_true)]
        simp only [hterm1]
        unfold badRequestLine at h2
        rcases Bool.or_eq_true_iff.mp h2 with hb | hb
        · rw [if_pos (by simpa using hb)]
          rfl
        · have hbm : matchConnect (requestLineOf ((b ++ ch).take i')) =
              none := Option.isNone_iff_eq_none.mp (by simpa using hb)
          by_cases hempty :
              (requestLineOf ((b ++ ch).take i')).isEmpty = true
          · rw [if_pos hempty]
            rfl
          · rw [if_neg hempty, hbm]
            rfl
      rw [List.foldl_cons, hstep]
      have hfin := runConn_after_end cs
        { buffer := b ++ ch, ended := true, written := [resp400],
          detached := false, connected := none } i' rfl rfl
        (by simpa using hterm1) (by simpa using h2)
      simp only at hfin
      rw [hfin]
      simp [List.flatten_cons, List.append_assoc]

/-- C8, counterexample: after the malformed header produced its single
400 and `clientSocket.end`, a later chunk `"extra"` is still read and
appended to the parser buffer — the source never removes the `data`
listener on the 400 path, so "performs no further reads on it" is false
(while "exactly one 400" and the close do hold). -/
theorem handleConnection_reads_after_400 :
    (runConn ["GET / HTTP/1.1\r\n\r\n".data, "extra".data]).written =
        [resp400] ∧
      (runConn ["GET / HTTP/1.1\r\n\r\n".data, "extra".data]).ended = true ∧
      (runConn ["GET / HTTP/1.1\r\n\r\n".data, "extra".data]).connected =
        none ∧
      (runConn ["GET / HTTP/1.1\r\n\r\n".data, "extra".data]).buffer =
        "GET / HTTP/1.1\r\n\r\nextra".data := by
  decide

/-- C8, amended: for every chunked client stream whose accumulated bytes
contain a header terminator and whose first request line fails the
CONNECT pattern (or is empty), the router writes exactly one
`HTTP/1.1 400 Bad Request` and ends the socket, and never dispatches a
connection — but the `data` listener stays attached, so all later bytes
are still read into the buffer; they merely cause no further response
bytes and no connection attempt (a repeated `end` on the ended socket
writes nothing). -/
theorem handleConnection_bad_request_line (chunks : List (List Char))
    (i : Nat) (hterm : findTermIdx chunks.flatten = some i)
    (hbad : badRequestLine (requestLineOf (chunks.flatten.take i)) = true) :
    runConn chunks =
      { buffer := chunks.flatten, ended := true, written := [resp400],
        detached := false, connected := none } := by
  have h := runConn_from_buffer chunks [] i rfl (by simpa using hterm)
    (by simpa using hbad)
  simpa [runConn, initConn] using h

/-- C8, witness: a `GET` request split across two chunks with trailing
bytes after the header terminator. -/
theorem handleConnection_bad_request_line_witness :
    runConn ["GE".data, "T / HTTP/1.1\r\n\r\nxyz".data] =
      { buffer := "GET / HTTP/1.1\r\n\r\nxyz".data, ended := true,
        written := [resp400], detached := false, connected := none } := by
  have h := handleConnection_bad_request_line
    ["GE".data, "T / HTTP/1.1\r\n\r\nxyz".data] 14 (by decide) (by decide)
  rw [h]
  decide

end ProxyRouter
